import Mathlib

/-!
Verification model of the GIGS Marketplace backend (src/main.py, src/schemas.py).

Stored documents are modelled as ordered association lists of BSON-like values
(Python dicts preserve insertion order).  The pydantic schemas become Lean
structures together with explicit validation functions; the FastAPI handlers
become pure functions over an explicit `Store` state.  The persistence layer
(`database.py`: `db`, `create_document`, `get_documents`) is imported by
src/main.py but its source is not available, so it is modelled from the spec
(section 4.3 "Document Store Accessor"): point reads by identifier, insert
returning a fresh identifier, and a filtered scan capped at a limit.

JSON `null` for optional body fields is collapsed with "absent" (no claim
distinguishes them); numeric values are modelled as rationals (no claim
performs float arithmetic — prices are only compared with 0 and carried).
-/

deriving instance DecidableEq for Except

namespace Marketplace

/-- BSON-like values appearing in stored documents. `oid` is a store-native
ObjectId rendered by its 24-character hex string; `dt` is a native datetime
carrying its ISO-8601 rendering (the only value with an `isoformat` method). -/
inductive BVal where
  | str (s : String)
  | oid (s : String)
  | dt (iso : String)
  | num (q : Rat)
  | bool (b : Bool)
  | null
  | strList (xs : List String)
deriving DecidableEq

/-- A stored document: an insertion-ordered association list, as a Python dict. -/
abbrev Doc := List (String × BVal)

/-- Python `str(v)`. In every document this model ever serializes, `_id` is an
ObjectId, so only the `oid` branch is reachable from `serialize_doc`. -/
def pyStr : BVal → String
  | .str s => s
  | .oid s => s
  | .dt s => s
  | .num q => toString q
  | .bool b => if b then "True" else "False"
  | .null => "None"
  | .strList xs => toString xs

/-- Python `dict.pop(k)`: remove the entry for `k`, returning its value and the
remaining dict in order; `none` models the `KeyError` raised when `k` is absent. -/
def popField (k : String) : Doc → Option (BVal × Doc)
  | [] => none
  | (k2, v) :: rest =>
    if k2 == k then some (v, rest)
    else match popField k rest with
      | none => none
      | some (v2, rest2) => some (v2, (k2, v) :: rest2)

/-- Python `d[k] = v` on a dict: update in place when the key exists, otherwise
append the new entry at the end. -/
def setField (d : Doc) (k : String) (v : BVal) : Doc :=
  if d.any (fun p => p.1 == k) then d.map (fun p => if p.1 == k then (k, v) else p)
  else d ++ [(k, v)]

/-- Conversion applied to each value by `serialize_doc`'s loop: a value with an
`isoformat` method (a native datetime) is replaced by its ISO-8601 string. -/
def isoConv : BVal → BVal
  | .dt s => .str s
  | v => v

/-- src/main.py `serialize_doc`. `none` is Python `None`; a falsy input
(`None` or the empty dict) is returned unchanged. Otherwise `doc.pop("_id")`
runs first: on a dict with no `_id` key it raises `KeyError`, modelled as
`Except.error`; on success the popped identifier is stored under `id` and every
datetime value is converted to its ISO string. -/
def serialize_doc : Option Doc → Except String (Option Doc)
  | none => .ok none
  | some d =>
    if d.isEmpty then .ok (some d)
    else match popField "_id" d with
      | none => .error "KeyError: _id"
      | some (v, rest) =>
        .ok (some ((setField rest "id" (.str (pyStr v))).map (fun p => (p.1, isoConv p.2))))

/-- Hexadecimal digit test, as accepted by `bson.ObjectId`. -/
def isHexDigit (c : Char) : Bool :=
  c.isDigit || ('a' ≤ c && c ≤ 'f') || ('A' ≤ c && c ≤ 'F')

/-- `bson.ObjectId.is_valid` on a string: exactly 24 hexadecimal characters. -/
def isValidObjectId (s : String) : Bool :=
  s.length == 24 && s.toList.all isHexDigit

/-- Modelled from the spec: pydantic's `EmailStr` validator (the external
`email-validator` library, not part of this repository) — "email does not match
standard email syntax".  Modelled as: exactly one `@`, a non-empty local part,
a domain containing an interior dot, and no spaces. -/
def is_valid_email (s : String) : Bool :=
  let cs := s.toList
  let l := cs.takeWhile (fun c => c != '@')
  let d := (cs.dropWhile (fun c => c != '@')).drop 1
  cs.count '@' == 1 && !l.isEmpty && !d.isEmpty && d.contains '.' &&
    d.head? != some '.' && d.getLast? != some '.' && cs.all (fun c => c != ' ')

/-- src/schemas.py `User` (validated form). Collection "user". -/
structure User where
  name : String
  email : String
  role : String
  bio : Option String
  skills : List String
  avatar_url : Option String
  is_active : Bool
deriving DecidableEq

/-- src/schemas.py `Gig` (validated form). Collection "gig". -/
structure Gig where
  title : String
  description : String
  category : String
  price : Rat
  creator_id : String
  creator_name : Option String
deriving DecidableEq

/-- src/schemas.py `Proposal` (validated form). Collection "proposal". -/
structure Proposal where
  gig_id : String
  client_id : String
  message : String
  offered_price : Option Rat
  status : String
deriving DecidableEq

/-- Raw request body for POST /api/users: each field may be absent. -/
structure UserIn where
  name : Option String
  email : Option String
  role : Option String
  bio : Option String
  skills : Option (List String)
  avatar_url : Option String
  is_active : Option Bool
deriving DecidableEq

/-- Raw request body for POST /api/gigs. -/
structure GigIn where
  title : Option String
  description : Option String
  category : Option String
  price : Option Rat
  creator_id : Option String
  creator_name : Option String
deriving DecidableEq

/-- Raw request body for POST /api/proposals. -/
structure ProposalIn where
  gig_id : Option String
  client_id : Option String
  message : Option String
  offered_price : Option Rat
  status : Option String
deriving DecidableEq

/-- Pydantic validation of the `User` schema: `name`, `email`, `role` required;
`email` must satisfy the email-syntax validator; `role` must match the regular
expression pattern anchored to (creator|client), i.e. be exactly one of the two;
`skills` defaults to the empty list and `is_active` to true. -/
def validateUser (u : UserIn) : Except String User :=
  match u.name, u.email, u.role with
  | none, _, _ => .error "name: field required"
  | _, none, _ => .error "email: field required"
  | _, _, none => .error "role: field required"
  | some name, some email, some role =>
    if !is_valid_email email then .error "email: value is not a valid email address"
    else if !(role == "creator" || role == "client") then
      .error "role: string should match pattern"
    else .ok { name := name, email := email, role := role, bio := u.bio,
               skills := u.skills.getD [], avatar_url := u.avatar_url,
               is_active := u.is_active.getD true }

/-- Pydantic validation of the `Gig` schema: `title`, `description`, `category`,
`price`, `creator_id` required; `price` must be ≥ 0 (`ge=0`); `creator_name`
is optional and defaults to none (its referential meaning is enforced later by
the handler, not here). -/
def validateGig (g : GigIn) : Except String Gig :=
  match g.title, g.description, g.category, g.price, g.creator_id with
  | none, _, _, _, _ => .error "title: field required"
  | _, none, _, _, _ => .error "description: field required"
  | _, _, none, _, _ => .error "category: field required"
  | _, _, _, none, _ => .error "price: field required"
  | _, _, _, _, none => .error "creator_id: field required"
  | some title, some description, some category, some price, some creator_id =>
    if price < 0 then .error "price: input should be greater than or equal to 0"
    else .ok { title := title, description := description, category := category,
               price := price, creator_id := creator_id, creator_name := g.creator_name }

/-- Membership in the anchored pattern (pending|accepted|rejected) of the
`status` field of the `Proposal` schema. -/
def statusOkBool (s : String) : Bool :=
  s == "pending" || s == "accepted" || s == "rejected"

/-- Final step of `Proposal` validation once the required string fields are
present and `offered_price` has been checked: apply the "pending" default and
the anchored status pattern. -/
def finishProposal (gig_id client_id message : String) (op : Option Rat)
    (stt : Option String) : Except String Proposal :=
  if !(statusOkBool (stt.getD "pending")) then .error "status: string should match pattern"
  else .ok { gig_id := gig_id, client_id := client_id, message := message,
             offered_price := op, status := stt.getD "pending" }

/-- Pydantic validation of the `Proposal` schema: `gig_id`, `client_id`,
`message` required; `offered_price`, when present, must be ≥ 0; `status`
defaults to "pending" and must match the anchored pattern
(pending|accepted|rejected). -/
def validateProposal (p : ProposalIn) : Except String Proposal :=
  match p.gig_id, p.client_id, p.message with
  | none, _, _ => .error "gig_id: field required"
  | _, none, _ => .error "client_id: field required"
  | _, _, none => .error "message: field required"
  | some gig_id, some client_id, some message =>
    match p.offered_price with
    | some q =>
      if q < 0 then .error "offered_price: input should be greater than or equal to 0"
      else finishProposal gig_id client_id message (some q) p.status
    | none => finishProposal gig_id client_id message none p.status

/-- API error surface: 422 validation failures (pydantic) and 404
`HTTPException(status_code=404, detail=...)`. -/
inductive ApiError where
  | validation (msg : String)
  | notFound (detail : String)
deriving DecidableEq

/-- Modelled from the spec: the document store's state — the three collections,
each a sequence of (identifier, record) pairs in insertion order, plus a counter
from which fresh identifiers are generated. Identifiers are lowercase 24-hex
ObjectId strings, as produced by the store. -/
structure Store where
  users : List (String × User)
  gigs : List (String × Gig)
  proposals : List (String × Proposal)
  counter : Nat
deriving DecidableEq

/-- Hexadecimal digit character (lowercase), for generated identifiers. -/
def hexDigit (n : Nat) : Char :=
  if n < 10 then Char.ofNat ('0'.toNat + n) else Char.ofNat ('a'.toNat + (n - 10))

/-- Rendering of a counter value as a 24-character lowercase hex ObjectId. -/
def natToHex24 (n : Nat) : String :=
  String.mk (((List.range 24).reverse).map (fun i => hexDigit (n / 16 ^ i % 16)))

/-- Modelled from the spec: the identifier `database.create_document` would
assign to the next inserted record ("returns a newly generated unique opaque
identifier"). -/
def freshId (st : Store) : String :=
  natToHex24 st.counter

/-- Modelled from the spec: `db["user"].find_one({"_id": ObjectId(s)})` — a
"point lookup by identifier" in the user collection. -/
def findUser (st : Store) (s : String) : Option User :=
  (st.users.find? (fun pr => pr.1 == s)).map (fun pr => pr.2)

/-- Modelled from the spec: `db["gig"].find_one({"_id": ObjectId(s)})` — a
point lookup by identifier in the gig collection. -/
def findGig (st : Store) (s : String) : Option Gig :=
  (st.gigs.find? (fun pr => pr.1 == s)).map (fun pr => pr.2)

/-- Modelled from the spec: `database.get_documents(collection, filter, limit)`
— a filtered scan over a collection, capped at `limit`, in store order. -/
def get_documents (docs : List α) (pred : α → Bool) (limit : Nat) : List α :=
  (docs.filter pred).take limit

/-- src/main.py `create_gig` (body already validated by the schema): resolve
`creator_id` (`ObjectId.is_valid` guard, else no lookup), 404 "Creator not
found" when unresolved; otherwise overwrite `creator_name` with the found
user's name and insert the gig. -/
def create_gig (st : Store) (gig : Gig) : Store × Except ApiError String :=
  let creator := if isValidObjectId gig.creator_id then findUser st gig.creator_id else none
  match creator with
  | none => (st, .error (.notFound "Creator not found"))
  | some creator =>
    let gig2 := { gig with creator_name := some creator.name }
    ({ st with gigs := st.gigs ++ [(freshId st, gig2)], counter := st.counter + 1 },
     .ok (freshId st))

/-- src/main.py `create_proposal` (body already validated): resolve `gig_id`
first (404 "Gig not found"), then `client_id` (404 "Client not found"), then
insert the proposal unchanged. -/
def create_proposal (st : Store) (p : Proposal) : Store × Except ApiError String :=
  let gig := if isValidObjectId p.gig_id then findGig st p.gig_id else none
  match gig with
  | none => (st, .error (.notFound "Gig not found"))
  | some _ =>
    let client := if isValidObjectId p.client_id then findUser st p.client_id else none
    match client with
    | none => (st, .error (.notFound "Client not found"))
    | some _ =>
      ({ st with proposals := st.proposals ++ [(freshId st, p)], counter := st.counter + 1 },
       .ok (freshId st))

/-- POST /api/proposals end to end: FastAPI runs pydantic validation of the raw
body (422 on failure, before the handler executes any lookup or write), then
the `create_proposal` handler. -/
def post_proposals (st : Store) (raw : ProposalIn) : Store × Except ApiError String :=
  match validateProposal raw with
  | .error e => (st, .error (.validation e))
  | .ok p => create_proposal st p

/-- Python truthiness of an optional query-parameter string: `None` and the
empty string are falsy. -/
def strTruthy : Option String → Bool
  | none => false
  | some s => s.length != 0

/-- Stored document corresponding to a `User` record (insertion order of the
schema fields, identifier first as the store returns it). -/
def userDoc (id : String) (u : User) : Doc :=
  [("_id", .oid id), ("name", .str u.name), ("email", .str u.email),
   ("role", .str u.role),
   ("bio", match u.bio with | some b => .str b | none => .null),
   ("skills", .strList u.skills),
   ("avatar_url", match u.avatar_url with | some a => .str a | none => .null),
   ("is_active", .bool u.is_active)]

/-- Stored document corresponding to a `Gig` record. -/
def gigDoc (id : String) (g : Gig) : Doc :=
  [("_id", .oid id), ("title", .str g.title), ("description", .str g.description),
   ("category", .str g.category), ("price", .num g.price),
   ("creator_id", .str g.creator_id),
   ("creator_name", match g.creator_name with | some n => .str n | none => .null)]

/-- Stored document corresponding to a `Proposal` record. -/
def proposalDoc (id : String) (p : Proposal) : Doc :=
  [("_id", .oid id), ("gig_id", .str p.gig_id), ("client_id", .str p.client_id),
   ("message", .str p.message),
   ("offered_price", match p.offered_price with | some q => .num q | none => .null),
   ("status", .str p.status)]

/-- Serialized form of a stored user document: `serialize_doc` pops `_id` and
appends its string rendering under `id`. -/
def serializeUser (id : String) (u : User) : Doc :=
  [("name", .str u.name), ("email", .str u.email), ("role", .str u.role),
   ("bio", match u.bio with | some b => .str b | none => .null),
   ("skills", .strList u.skills),
   ("avatar_url", match u.avatar_url with | some a => .str a | none => .null),
   ("is_active", .bool u.is_active), ("id", .str id)]

/-- Serialized form of a stored gig document. -/
def serializeGig (id : String) (g : Gig) : Doc :=
  [("title", .str g.title), ("description", .str g.description),
   ("category", .str g.category), ("price", .num g.price),
   ("creator_id", .str g.creator_id),
   ("creator_name", match g.creator_name with | some n => .str n | none => .null),
   ("id", .str id)]

/-- Serialized form of a stored proposal document. -/
def serializeProposal (id : String) (p : Proposal) : Doc :=
  [("gig_id", .str p.gig_id), ("client_id", .str p.client_id),
   ("message", .str p.message),
   ("offered_price", match p.offered_price with | some q => .num q | none => .null),
   ("status", .str p.status), ("id", .str id)]

/-- Consistency of the per-collection serializers with `serialize_doc`:
serializing a stored user document is exactly `serializeUser`. -/
theorem serialize_doc_userDoc (id : String) (u : User) :
    serialize_doc (some (userDoc id u)) = .ok (some (serializeUser id u)) := by
  cases u with
  | mk name email role bio skills avatar_url is_active =>
    cases bio <;> cases avatar_url <;> rfl

/-- Consistency of `serializeGig` with `serialize_doc` on stored gig documents. -/
theorem serialize_doc_gigDoc (id : String) (g : Gig) :
    serialize_doc (some (gigDoc id g)) = .ok (some (serializeGig id g)) := by
  cases g with
  | mk title description category price creator_id creator_name =>
    cases creator_name <;> rfl

/-- Consistency of `serializeProposal` with `serialize_doc` on stored proposal
documents. -/
theorem serialize_doc_proposalDoc (id : String) (p : Proposal) :
    serialize_doc (some (proposalDoc id p)) = .ok (some (serializeProposal id p)) := by
  cases p with
  | mk gig_id client_id message offered_price status =>
    cases offered_price <;> rfl

/-- src/main.py `list_users`: `filt = {"role": role} if role else {}`, then a
capped scan, each document serialized. -/
def list_users (st : Store) (role : Option String) : List Doc :=
  let pred := fun (u : User) =>
    if strTruthy role then u.role == role.getD "" else true
  (get_documents st.users (fun pr => pred pr.2) 100).map (fun pr => serializeUser pr.1 pr.2)

/-- Item of a regular-expression pattern, in the fragment this model covers:
literal characters and the metacharacter `.` (any single character). MongoDB's
`$regex` uses PCRE; on query strings containing no metacharacter at all, and on
patterns built from literals and `.`, PCRE and this fragment agree, which is
all the claims about `q` exercise. -/
inductive RItem where
  | lit (c : Char)
  | dot
deriving DecidableEq

/-- Parse of a query string into the pattern fragment: `.` becomes the
any-character item, every other character a literal. -/
def parsePattern (q : String) : List RItem :=
  q.toList.map (fun c => if c == '.' then RItem.dot else RItem.lit c)

/-- Anchored match of a pattern against the front of a string, case-insensitive
(the `"$options": "i"` flag): a literal compares lowercased, `.` consumes any
character. -/
def rMatchAt : List RItem → List Char → Bool
  | [], _ => true
  | _ :: _, [] => false
  | .lit c :: ps, x :: xs => (x.toLower == c.toLower) && rMatchAt ps xs
  | .dot :: ps, _ :: xs => rMatchAt ps xs

/-- Unanchored regex search: the pattern matches at some position of the string. -/
def rSearch (p : List RItem) (s : List Char) : Bool :=
  match s with
  | [] => rMatchAt p []
  | _ :: xs => rMatchAt p s || rSearch p xs

/-- MongoDB `{field: {"$regex": q, "$options": "i"}}` on a string field. -/
def regexMatch (q : String) (s : String) : Bool :=
  rSearch (parsePattern q) s.toList

/-- Pairwise character-equality test of a needle against the front of a
haystack (both already lowercased). -/
def leadMatch : List Char → List Char → Bool
  | [], _ => true
  | _ :: _, [] => false
  | a :: as, b :: bs => (a == b) && leadMatch as bs

/-- Containment of a needle at some position of a haystack (both lowercased). -/
def subMatch (n : List Char) (h : List Char) : Bool :=
  match h with
  | [] => n.isEmpty
  | _ :: t => leadMatch n h || subMatch n t

/-- Case-insensitive substring containment, the spec's reading of the `q`
filter ("case-insensitive substring match"). -/
def containsCI (needle hay : String) : Bool :=
  subMatch (needle.toList.map Char.toLower) (hay.toList.map Char.toLower)

/-- Disjunction of the three `$regex` clauses src/main.py builds under `"$or"`
for a gig: title, description, creator_name.  A clause on a field holding
`null` (an absent creator_name) matches nothing. -/
def gigRegexQ (q : String) (g : Gig) : Bool :=
  regexMatch q g.title || regexMatch q g.description ||
    (match g.creator_name with | some n => regexMatch q n | none => false)

/-- src/main.py `list_gigs`: an exact-match `category` clause when the
parameter is truthy, the `$or` of three case-insensitive `$regex` clauses when
`q` is truthy, ANDed; capped scan, each document serialized. -/
def list_gigs (st : Store) (category : Option String) (q : Option String) : List Doc :=
  let pred := fun (g : Gig) =>
    (if strTruthy category then g.category == category.getD "" else true) &&
    (if strTruthy q then gigRegexQ (q.getD "") g else true)
  (get_documents st.gigs (fun pr => pred pr.2) 100).map (fun pr => serializeGig pr.1 pr.2)

/-- src/main.py `list_proposals`: an exact-match clause for each of `gig_id`
and `client_id` that is truthy AND passes `ObjectId.is_valid`; other values are
dropped from the filter; capped scan, each document serialized. -/
def list_proposals (st : Store) (gig_id : Option String) (client_id : Option String) :
    List Doc :=
  let pred := fun (p : Proposal) =>
    (if strTruthy gig_id && isValidObjectId (gig_id.getD "") then
       p.gig_id == gig_id.getD "" else true) &&
    (if strTruthy client_id && isValidObjectId (client_id.getD "") then
       p.client_id == client_id.getD "" else true)
  (get_documents st.proposals (fun pr => pred pr.2) 100).map
    (fun pr => serializeProposal pr.1 pr.2)

/-- Characters with a special meaning in the regular-expression syntax MongoDB
uses for `$regex` (PCRE).  A query string avoiding all of them is interpreted
purely literally. -/
def isRegexSafe (c : Char) : Bool :=
  c != '.' && c != '\\' && c != '^' && c != '$' && c != '|' && c != '?' && c != '*' &&
    c != '+' && c != '(' && c != ')' && c != '[' && c != ']' && c != '\x7b' && c != '\x7d'

/-- Spec-side reading of the `q` filter on one gig: "case-insensitive substring
match over title, description, creator_name (OR-combined)". -/
def qSubstringMatch (q : String) (g : Gig) : Bool :=
  containsCI q g.title || containsCI q g.description ||
    (match g.creator_name with | some n => containsCI q n | none => false)

/-- Spec-side `q` filter with the absent/empty convention: an empty `q`
applies no filter. -/
def specQFilter (q : String) (g : Gig) : Bool :=
  if q.length != 0 then qSubstringMatch q g else true

/-- Spec-side category filter: "category performs exact match", an absent or
empty parameter applying no filter. -/
def specCategoryFilter (c : Option String) (g : Gig) : Bool :=
  match c with
  | some cc => if cc.length != 0 then g.category == cc else true
  | none => true

/-- Spec-side identifier filter for proposal listing: "filtered by exact match
on each provided, valid identifier (invalid-format identifiers are silently
ignored as filters)". -/
def specIdFilter (o : Option String) (v : String) : Bool :=
  match o with
  | some s => if isValidObjectId s then v == s else true
  | none => true

theorem char_beq_comm (a b : Char) : (a == b) = (b == a) := by
  by_cases h : a = b
  · subst h; rfl
  · simp [h, Ne.symm h]

theorem rMatchAt_lit (l : List Char) (s : List Char) :
    rMatchAt (l.map RItem.lit) s = leadMatch (l.map Char.toLower) (s.map Char.toLower) := by
  induction l generalizing s with
  | nil => cases s <;> rfl
  | cons c cs ih =>
    cases s with
    | nil => rfl
    | cons x xs =>
      simp only [List.map_cons, rMatchAt, leadMatch, ih, char_beq_comm]

theorem leadMatch_nil (n : List Char) : leadMatch n [] = n.isEmpty := by
  cases n <;> rfl

theorem rSearch_lit (l : List Char) (s : List Char) :
    rSearch (l.map RItem.lit) s = subMatch (l.map Char.toLower) (s.map Char.toLower) := by
  induction s with
  | nil => cases l <;> rfl
  | cons x xs ih =>
    simp only [rSearch, subMatch, List.map_cons, ih, rMatchAt_lit]

theorem isRegexSafe_not_dot (c : Char) (h : isRegexSafe c = true) : (c == '.') = false := by
  unfold isRegexSafe at h
  simp only [Bool.and_eq_true, bne_iff_ne] at h
  simpa using h.1.1.1.1.1.1.1.1.1.1.1.1.1

theorem parsePattern_no_meta (q : String) (h : q.toList.all isRegexSafe = true) :
    parsePattern q = q.toList.map RItem.lit := by
  unfold parsePattern
  refine List.map_congr_left (fun c hc => ?_)
  rw [List.all_eq_true] at h
  rw [isRegexSafe_not_dot c (h c hc)]
  rfl

/-- On a metacharacter-free query string the MongoDB regex filter is exactly
case-insensitive substring containment. -/
theorem regexMatch_eq_containsCI (q : String) (h : q.toList.all isRegexSafe = true)
    (s : String) : regexMatch q s = containsCI q s := by
  unfold regexMatch containsCI
  rw [parsePattern_no_meta q h, rSearch_lit]

theorem gigRegexQ_eq_substring (q : String) (h : q.toList.all isRegexSafe = true) (g : Gig) :
    gigRegexQ q g = qSubstringMatch q g := by
  cases hcn : g.creator_name <;>
    simp [gigRegexQ, qSubstringMatch, hcn, regexMatch_eq_containsCI q h]

theorem popField_of_absent (k : String) (d : Doc) (h : d.all (fun p => p.1 != k) = true) :
    popField k d = none := by
  induction d with
  | nil => rfl
  | cons hd tl ih =>
    rw [List.all_cons, Bool.and_eq_true] at h
    unfold popField
    rw [show (hd.1 == k) = false by simpa using h.1, ih h.2]
    simp

theorem finishProposal_ok_status (gid cid msg : String) (op : Option Rat)
    (stt : Option String) (p : Proposal)
    (h : finishProposal gid cid msg op stt = .ok p) : statusOkBool p.status = true := by
  unfold finishProposal at h
  by_cases hb : statusOkBool (stt.getD "pending") = true
  · rw [hb] at h
    simp only [Bool.not_true, if_false] at h
    cases h
    exact hb
  · have hb2 : statusOkBool (stt.getD "pending") = false := by
      cases hx : statusOkBool (stt.getD "pending")
      · rfl
      · exact absurd hx hb
    rw [hb2] at h
    simp at h

theorem validateProposal_statusOk (raw : ProposalIn) (p : Proposal)
    (h : validateProposal raw = .ok p) : statusOkBool p.status = true := by
  rcases raw with ⟨gid, cid, msg, op, stt⟩
  cases gid <;> cases cid <;> cases msg <;> simp [validateProposal] at h
  cases op with
  | none => exact finishProposal_ok_status _ _ _ _ _ _ h
  | some q =>
    by_cases hq : q < 0
    · simp [hq] at h
    · simp [hq] at h
      exact finishProposal_ok_status _ _ _ _ _ _ h

/-- Concrete user identifier (a well-formed 24-hex ObjectId string). -/
def uid0 : String := "507f1f77bcf86cd799439011"

/-- Concrete gig identifier. -/
def gid0 : String := "607f1f77bcf86cd799439012"

/-- Concrete user record. -/
def u0 : User :=
  { name := "Ann", email := "ann@example.com", role := "creator", bio := none,
    skills := [], avatar_url := none, is_active := true }

/-- Concrete gig whose title "abc" is matched by the regex "a.c" but does not
contain it as a substring. -/
def gigAbc : Gig :=
  { title := "abc", description := "x", category := "design", price := 0,
    creator_id := uid0, creator_name := some "Ann" }

/-- Concrete gig creation body carrying a caller-supplied creator_name. -/
def g0 : Gig :=
  { title := "Logo", description := "design work", category := "design", price := 50,
    creator_id := uid0, creator_name := some "Bogus" }

/-- Concrete gig whose creator_id is not a well-formed ObjectId string. -/
def gBad : Gig :=
  { title := "Logo", description := "design work", category := "design", price := 50,
    creator_id := "not-a-valid-id", creator_name := none }

/-- Concrete proposal whose gig_id is not a well-formed ObjectId string. -/
def pBadGig : Proposal :=
  { gig_id := "nope", client_id := uid0, message := "hi", offered_price := none,
    status := "pending" }

/-- Store with no records. -/
def emptyStore : Store := { users := [], gigs := [], proposals := [], counter := 0 }

/-- Store holding one user and one gig. -/
def stAbc : Store :=
  { users := [(uid0, u0)], gigs := [(gid0, gigAbc)], proposals := [], counter := 2 }

/-- Concrete proposal creation body with a status outside the enumeration. -/
def rawBadStatus : ProposalIn :=
  { gig_id := some gid0, client_id := some uid0, message := some "hi",
    offered_price := none, status := some "weird" }

/-- C1: a Gig creation whose creator_id fails to parse as a store identifier,
or matches no stored User, fails with the 404 NotFoundError "Creator not
found" and leaves the store exactly as it was — no Gig is persisted, the
failure preceding any write. -/
theorem create_gig_creator_not_found (st : Store) (g : Gig)
    (h : isValidObjectId g.creator_id = false ∨ findUser st g.creator_id = none) :
    create_gig st g = (st, Except.error (ApiError.notFound "Creator not found")) := by
  unfold create_gig
  rcases h with h | h
  · simp [h]
  · cases hv : isValidObjectId g.creator_id <;> simp [h, hv]

theorem create_gig_creator_not_found_witness :
    isValidObjectId gBad.creator_id = false ∧
      create_gig emptyStore gBad =
        (emptyStore, Except.error (ApiError.notFound "Creator not found")) :=
  ⟨by decide, create_gig_creator_not_found emptyStore gBad (Or.inl (by decide))⟩

/-- C2: Proposal creation resolves the gig before the client, and the first
failure wins: whenever gig_id is unresolvable, the result is the 404 "Gig not
found" with the store unchanged, for every value of client_id whatsoever (so
with both identifiers unresolvable the error is never "Client not found", and
the outcome never depends on the client lookup). -/
theorem create_proposal_gig_checked_first (st : Store) (p : Proposal)
    (h : isValidObjectId p.gig_id = false ∨ findGig st p.gig_id = none) :
    ∀ c : String, create_proposal st { p with client_id := c } =
      (st, Except.error (ApiError.notFound "Gig not found")) := by
  intro c
  unfold create_proposal
  rcases h with h | h
  · simp [h]
  · cases hv : isValidObjectId p.gig_id <;> simp [h, hv]

theorem create_proposal_gig_checked_first_witness :
    isValidObjectId pBadGig.gig_id = false ∧
      create_proposal stAbc { pBadGig with client_id := "also-invalid" } =
        (stAbc, Except.error (ApiError.notFound "Gig not found")) :=
  ⟨by decide, create_proposal_gig_checked_first stAbc pBadGig (Or.inl (by decide)) "also-invalid"⟩

/-- C3: when creator_id resolves to a stored User, the persisted gig's
creator_name is that User's name, whatever creator_name the caller supplied —
the caller's value is always overwritten before the write. -/
theorem create_gig_overwrites_creator_name (st : Store) (g : Gig) (u : User)
    (h : (if isValidObjectId g.creator_id then findUser st g.creator_id else none) = some u) :
    ∀ cn : Option String,
      create_gig st { g with creator_name := cn } =
        ({ st with
            gigs := st.gigs ++ [(freshId st, { g with creator_name := some u.name })],
            counter := st.counter + 1 }, Except.ok (freshId st)) := by
  intro cn
  cases g with
  | mk t d c pr ci cn0 => simp [create_gig, h]

theorem create_gig_overwrites_creator_name_witness :
    (if isValidObjectId g0.creator_id then findUser stAbc g0.creator_id else none) = some u0 ∧
      create_gig stAbc { g0 with creator_name := some "Bogus" } =
        ({ stAbc with
            gigs := stAbc.gigs ++ [(freshId stAbc, { g0 with creator_name := some u0.name })],
            counter := stAbc.counter + 1 }, Except.ok (freshId stAbc)) :=
  ⟨by decide, create_gig_overwrites_creator_name stAbc g0 u0 (by decide) (some "Bogus")⟩

/-- C10: a successful Gig creation persists exactly one new record whose
title, description, category, price and creator_id are the validated
caller-supplied values unchanged; only creator_name is rewritten (to the
referenced User's name) between validation and persistence. -/
theorem create_gig_frame (st : Store) (g : Gig) (u : User)
    (h : (if isValidObjectId g.creator_id then findUser st g.creator_id else none) = some u) :
    ∃ id g2,
      create_gig st g =
        ({ st with gigs := st.gigs ++ [(id, g2)], counter := st.counter + 1 },
         Except.ok id) ∧
      g2.title = g.title ∧ g2.description = g.description ∧ g2.category = g.category ∧
      g2.price = g.price ∧ g2.creator_id = g.creator_id ∧ g2.creator_name = some u.name := by
  refine ⟨freshId st, { g with creator_name := some u.name }, ?_, rfl, rfl, rfl, rfl, rfl, rfl⟩
  unfold create_gig
  simp [h]

theorem create_gig_frame_witness :
    (if isValidObjectId g0.creator_id then findUser stAbc g0.creator_id else none) = some u0 ∧
      ∃ id g2,
        create_gig stAbc g0 =
          ({ stAbc with gigs := stAbc.gigs ++ [(id, g2)], counter := stAbc.counter + 1 },
           Except.ok id) ∧
        g2.title = g0.title ∧ g2.description = g0.description ∧ g2.category = g0.category ∧
        g2.price = g0.price ∧ g2.creator_id = g0.creator_id ∧ g2.creator_name = some u0.name :=
  ⟨by decide, create_gig_frame stAbc g0 u0 (by decide)⟩

/-- C8: every proposal ever persisted has status in the three-value
enumeration: a supplied out-of-range status is rejected as a 422
ValidationError with the store left untouched (the rejection happens before
any lookup or write, for every store alike), an absent status validates to the
default "pending", and the store's proposal collection after a POST contains
only previously-present records or records with an enumerated status. -/
theorem proposal_status_invariant (st : Store) (raw : ProposalIn) :
    (∀ s, raw.status = some s → s ≠ "pending" → s ≠ "accepted" → s ≠ "rejected" →
        ∃ e, post_proposals st raw = (st, Except.error (ApiError.validation e))) ∧
    (∀ p, validateProposal raw = Except.ok p → raw.status = none → p.status = "pending") ∧
    (∀ pr, pr ∈ (post_proposals st raw).1.proposals →
        pr ∈ st.proposals ∨
          (pr.2.status = "pending" ∨ pr.2.status = "accepted" ∨ pr.2.status = "rejected")) := by
  refine ⟨?_, ?_, ?_⟩
  · intro s hs h1 h2 h3
    have hb : statusOkBool s = false := by
      simp only [statusOkBool, Bool.or_eq_false_iff]
      exact ⟨⟨by simpa using h1, by simpa using h2⟩, by simpa using h3⟩
    have he : ∃ e, validateProposal raw = .error e := by
      rcases raw with ⟨gid, cid, msg, op, stt⟩
      simp only at hs
      subst hs
      cases gid with
      | none => exact ⟨"gig_id: field required", by simp [validateProposal]⟩
      | some gv =>
        cases cid with
        | none => exact ⟨"client_id: field required", by simp [validateProposal]⟩
        | some cv =>
          cases msg with
          | none => exact ⟨"message: field required", by simp [validateProposal]⟩
          | some mv =>
            cases op with
            | none =>
              exact ⟨"status: string should match pattern",
                by simp [validateProposal, finishProposal, hb]⟩
            | some q =>
              by_cases hq : q < 0
              · exact ⟨"offered_price: input should be greater than or equal to 0",
                  by simp [validateProposal, hq]⟩
              · exact ⟨"status: string should match pattern",
                  by simp [validateProposal, finishProposal, hq, hb]⟩
    rcases he with ⟨e, he⟩
    exact ⟨e, by unfold post_proposals; rw [he]⟩
  · intro p hp hnone
    rcases raw with ⟨gid, cid, msg, op, stt⟩
    simp only at hnone
    subst hnone
    cases gid <;> cases cid <;> cases msg <;> simp [validateProposal] at hp
    have hfin : statusOkBool ((none : Option String).getD "pending") = true := rfl
    cases op with
    | none =>
      unfold finishProposal at hp
      rw [hfin] at hp
      simp only [Bool.not_true, if_false] at hp
      cases hp
      rfl
    | some q =>
      by_cases hq : q < 0
      · simp [hq] at hp
      · simp only [hq, if_false] at hp
        unfold finishProposal at hp
        rw [hfin] at hp
        simp only [Bool.not_true, if_false] at hp
        cases hp
        rfl
  · intro pr hpr
    cases hv : validateProposal raw with
    | error e =>
      simp only [post_proposals, hv] at hpr
      exact Or.inl hpr
    | ok p =>
      simp only [post_proposals, hv] at hpr
      cases hg : (if isValidObjectId p.gig_id then findGig st p.gig_id else none) with
      | none =>
        simp only [create_proposal, hg] at hpr
        exact Or.inl hpr
      | some gg =>
        cases hc : (if isValidObjectId p.client_id then findUser st p.client_id else none) with
        | none =>
          simp only [create_proposal, hg, hc] at hpr
          exact Or.inl hpr
        | some cc =>
          simp only [create_proposal, hg, hc, List.mem_append, List.mem_singleton] at hpr
          rcases hpr with hpr | hpr
          · exact Or.inl hpr
          · right
            have hok := validateProposal_statusOk raw p hv
            subst hpr
            simpa [statusOkBool, Bool.or_eq_true, or_assoc] using hok

theorem proposal_status_invariant_witness :
    rawBadStatus.status = some "weird" ∧
      ∃ e, post_proposals emptyStore rawBadStatus =
        (emptyStore, Except.error (ApiError.validation e)) :=
  ⟨rfl, (proposal_status_invariant emptyStore rawBadStatus).1 "weird" rfl
    (by decide) (by decide) (by decide)⟩

/-- C4 counterexample: on a non-empty record already in serialized form (it
has an `id` field, no `_id` and no datetime values) the serializer is not a
no-op — `doc.pop("_id")` raises `KeyError`, so the result is a failure, not
the unchanged record. -/
theorem serialize_doc_not_noop :
    serialize_doc (some [("id", BVal.str "x"), ("name", BVal.str "Ann")]) ≠
      Except.ok (some [("id", BVal.str "x"), ("name", BVal.str "Ann")]) := by
  decide

/-- C4 (amended): an absent record and the empty record pass through the
serializer unchanged (null stays null), but a non-empty record with no
store-native `_id` field makes the serializer fail with a `KeyError` from
`doc.pop("_id")` rather than acting as a no-op. -/
theorem serialize_doc_amended (d : Doc) (hne : d.isEmpty = false)
    (hid : d.all (fun p => p.1 != "_id") = true) :
    serialize_doc none = Except.ok none ∧
    serialize_doc (some []) = Except.ok (some []) ∧
    serialize_doc (some d) = Except.error "KeyError: _id" := by
  refine ⟨rfl, rfl, ?_⟩
  simp only [serialize_doc]
  rw [hne]
  simp only [Bool.false_eq_true, if_false]
  rw [popField_of_absent "_id" d hid]

theorem serialize_doc_amended_witness :
    ([("id", BVal.str "x")] : Doc).isEmpty = false ∧
      (([("id", BVal.str "x")] : Doc).all (fun p => p.1 != "_id")) = true ∧
      (serialize_doc none = Except.ok none ∧
        serialize_doc (some []) = Except.ok (some []) ∧
        serialize_doc (some [("id", BVal.str "x")]) = Except.error "KeyError: _id") :=
  ⟨by decide, by decide, serialize_doc_amended [("id", BVal.str "x")] (by decide) (by decide)⟩

/-- C5 counterexample: an input whose name is the empty string but whose other
fields are well-formed passes User validation — `name: str` carries no
min-length constraint, so the claim's "empty name is rejected" is false. -/
theorem validateUser_accepts_empty_name :
    validateUser
        { name := some "", email := some "ann@example.com", role := some "creator",
          bio := none, skills := none, avatar_url := none, is_active := none } =
      Except.ok
        { name := "", email := "ann@example.com", role := "creator", bio := none,
          skills := [], avatar_url := none, is_active := true } := by
  decide

/-- C5 (amended): User validation succeeds exactly when name is present (any
string, the empty string included), email is present and matches the email
syntax (which the empty string fails), and role is exactly "creator" or
"client"; equivalently, it fails exactly when one of those conditions fails —
but an empty-string name is accepted, not rejected. -/
theorem validateUser_ok_characterization (u : UserIn) :
    (∃ v, validateUser u = Except.ok v) ↔
      (u.name ≠ none ∧ (∃ e, u.email = some e ∧ is_valid_email e = true) ∧
        (u.role = some "creator" ∨ u.role = some "client")) := by
  rcases u with ⟨n, e, r, bio, sk, av, ia⟩
  cases n with
  | none => simp [validateUser]
  | some nv =>
    cases e with
    | none => simp [validateUser]
    | some ev =>
      cases r with
      | none => simp [validateUser]
      | some rv =>
        simp only [validateUser, ne_eq, Option.some.injEq, reduceCtorEq,
          not_false_eq_true, true_and, exists_eq_left]
        constructor
        · rintro ⟨v, hv⟩
          by_cases he : is_valid_email ev = true
          · by_cases hr : (rv == "creator" || rv == "client") = true
            · have hr2 : rv = "creator" ∨ rv = "client" := by
                simpa [Bool.or_eq_true, beq_iff_eq] using hr
              exact ⟨⟨ev, rfl, he⟩, hr2⟩
            · have hr2 : (rv == "creator" || rv == "client") = false := by
                cases hx : (rv == "creator" || rv == "client")
                · rfl
                · exact absurd hx hr
              rw [he, hr2] at hv
              simp at hv
          · have he2 : is_valid_email ev = false := by
              cases hx : is_valid_email ev
              · rfl
              · exact absurd hx he
            rw [he2] at hv
            simp at hv
        · rintro ⟨⟨e2, rfl, hve⟩, hr⟩
          refine ⟨{ name := nv, email := ev, role := rv, bio := bio, skills := sk.getD [],
                    avatar_url := av, is_active := ia.getD true }, ?_⟩
          have hr2 : (rv == "creator" || rv == "client") = true := by
            rcases hr with rfl | rfl <;> simp
          rw [hve, hr2]
          rfl

/-- C9: a query parameter supplied as the empty string behaves exactly as an
absent parameter on every listing endpoint — empty role, category, q, gig_id
and client_id apply no filter, because Python truthiness tests (`if role`,
`if category`, `if q`, `gig_id and ...`, `client_id and ...`) drop them. -/
theorem empty_query_params_ignored (st : Store) :
    list_users st (some "") = list_users st none ∧
    (∀ q, list_gigs st (some "") q = list_gigs st none q) ∧
    (∀ c, list_gigs st c (some "") = list_gigs st c none) ∧
    (∀ cid, list_proposals st (some "") cid = list_proposals st none cid) ∧
    (∀ gid, list_proposals st gid (some "") = list_proposals st gid none) := by
  refine ⟨?_, ?_, ?_, ?_, ?_⟩
  · simp [list_users, strTruthy]
  · intro q
    simp [list_gigs, strTruthy]
  · intro c
    simp [list_gigs, strTruthy]
  · intro cid
    simp [list_proposals, strTruthy]
  · intro gid
    simp [list_proposals, strTruthy]

/-- C7: proposal listing never errors on malformed identifier filters — the
returned list always equals the stored proposals filtered by exact match on
each parameter that is a syntactically valid ObjectId (a provided invalid one,
the empty string included, imposes no constraint), serialized, and capped at
100 records. -/
theorem list_proposals_exact_filter (st : Store) (gid cid : Option String) :
    list_proposals st gid cid =
      ((st.proposals.filter (fun pr => specIdFilter gid pr.2.gig_id &&
          specIdFilter cid pr.2.client_id)).take 100).map
        (fun pr => serializeProposal pr.1 pr.2) ∧
    (list_proposals st gid cid).length ≤ 100 := by
  have hpt : ∀ (o : Option String) (v : String),
      (if strTruthy o && isValidObjectId (o.getD "") then v == o.getD "" else true) =
        specIdFilter o v := by
    intro o v
    cases o with
    | none => rfl
    | some s =>
      show (if (s.length != 0) && isValidObjectId s then v == s else true) =
        (if isValidObjectId s then v == s else true)
      cases hv : isValidObjectId s with
      | false => simp [hv]
      | true =>
        have hlen : s.length = 24 := by
          unfold isValidObjectId at hv
          rw [Bool.and_eq_true] at hv
          simpa using hv.1
        have hne : (s.length != 0) = true := by rw [hlen]; rfl
        simp [hv, hne]
  constructor
  · simp only [list_proposals, get_documents]
    congr 1
    congr 1
    apply List.filter_congr
    intro pr _
    rw [hpt gid pr.2.gig_id, hpt cid pr.2.client_id]
  · simp only [list_proposals, get_documents, List.length_map]
    exact List.length_take_le _ _

/-- C6 counterexample: with the stored gig titled "abc" (category "design"),
listing with category "design" and q = "a.c" returns that gig — the `$regex`
filter interprets `.` as "any character" — even though "a.c" is not a
case-insensitive substring of any of the gig's three searched fields, so the
result is not "exactly the records satisfying the substring filter". -/
theorem list_gigs_regex_not_substring :
    list_gigs stAbc (some "design") (some "a.c") = [serializeGig gid0 gigAbc] ∧
    qSubstringMatch "a.c" gigAbc = false := by
  constructor
  · decide
  · decide

/-- C6 (amended): for a query string free of regex metacharacters the claim
holds as stated — listing returns exactly the stored gigs passing the exact
category match AND the case-insensitive substring match of q over title,
description or creator_name, serialized and capped at 100; for other query
strings q is interpreted as a regular-expression pattern, not a literal
substring. -/
theorem list_gigs_literal_q (st : Store) (c : Option String) (q : String)
    (h : q.toList.all isRegexSafe = true) :
    list_gigs st c (some q) =
      ((st.gigs.filter (fun pr => specCategoryFilter c pr.2 && specQFilter q pr.2)).take
          100).map
        (fun pr => serializeGig pr.1 pr.2) := by
  simp only [list_gigs, get_documents]
  congr 1
  congr 1
  apply List.filter_congr
  intro pr _
  have hcat : (if strTruthy c then pr.2.category == c.getD "" else true) =
      specCategoryFilter c pr.2 := by
    cases c with
    | none => rfl
    | some cc => rfl
  have hq : (if strTruthy (some q) then gigRegexQ ((some q).getD "") pr.2 else true) =
      specQFilter q pr.2 := by
    show (if q.length != 0 then gigRegexQ q pr.2 else true) = specQFilter q pr.2
    unfold specQFilter
    cases hl : (q.length != 0) with
    | false => rfl
    | true => simp [gigRegexQ_eq_substring q h]
  rw [hcat, hq]

theorem list_gigs_literal_q_witness :
    "logo".toList.all isRegexSafe = true ∧
      list_gigs stAbc (some "design") (some "logo") =
        ((stAbc.gigs.filter (fun pr => specCategoryFilter (some "design") pr.2 &&
            specQFilter "logo" pr.2)).take 100).map (fun pr => serializeGig pr.1 pr.2) :=
  ⟨by decide, list_gigs_literal_q stAbc (some "design") "logo" (by decide)⟩

end Marketplace
